import Mathlib

/-!
Verification of the hyperliquid_hedger trading engine core against its
natural-language specification.

Shallow embedding conventions:
* `rust_decimal::Decimal` is modelled as `ℚ` (exact rational arithmetic).
* `std::time::Instant` is modelled as `ℕ` (abstract monotone clock ticks);
  `t.elapsed()` at time `now` is `now - t` (truncated subtraction, with the
  source guarantee `t ≤ now`).
* Concurrent maps (`DashMap`) keyed by symbol are modelled as total functions
  `String → Option α`; channels are modelled as bounded queues.
* Identifiers, timestamps and event-channel plumbing that no claim depends on
  are omitted from the record types; every retained field and every branch is
  transliterated from the Rust source.
-/

namespace Hedger

/-- `Side` from src/trading/types.rs. -/
inductive Side where
  | Buy
  | Sell
deriving DecidableEq, Repr

/-- `OrderStatus` from src/trading/types.rs. -/
inductive OrderStatus where
  | Pending
  | Submitted
  | PartiallyFilled
  | Filled
  | Cancelled
  | Rejected
deriving DecidableEq, Repr

/-- `OrderType` from src/trading/types.rs. -/
inductive OrderType where
  | Market
  | Limit
  | PostOnly
deriving DecidableEq, Repr

/-- `Fill` from src/trading/types.rs (ids, symbol and timestamp omitted;
all claims are about fills of a single symbol). -/
structure Fill where
  side : Side
  price : ℚ
  size : ℚ
  fee : ℚ
deriving DecidableEq, Repr

/-- `Position` from src/trading/types.rs (symbol and timestamp omitted). -/
structure Position where
  size : ℚ
  entry_price : ℚ
  mark_price : ℚ
  unrealized_pnl : ℚ
  realized_pnl : ℚ
deriving DecidableEq, Repr

/-- Sign flag of a nonzero `Decimal`: `is_sign_positive()` of a value known to
be nonzero is exactly `0 < x`. -/
def signPos (x : ℚ) : Bool := decide (0 < x)

/-- The signed fill delta computed at the top of `process_fill`
(src/trading/position_manager.rs lines 75-78): `+size` for Buy, `-size` for
Sell. -/
def fillSignedSize (f : Fill) : ℚ :=
  match f.side with
  | .Buy => f.size
  | .Sell => -f.size

/-- `fill_size.is_sign_positive()` for the signed delta above, including the
negative-zero sign flag a `Sell` of size zero produces in `rust_decimal`. -/
def fillSignPositive (f : Fill) : Bool :=
  match f.side with
  | .Buy => decide (0 ≤ f.size)
  | .Sell => decide (f.size < 0)

/-- The reduction guard of `process_fill`
(src/trading/position_manager.rs line 81). -/
def isReducing (p : Position) (f : Fill) : Bool :=
  decide (p.size ≠ 0) && (signPos p.size != fillSignPositive f)

/-- Realized-P&L increment of one fill (src/trading/position_manager.rs
lines 81-88): on a reducing fill, `(exit - entry) * sign` times the
overlapping quantity; zero otherwise. -/
def realizedDelta (p : Position) (f : Fill) : ℚ :=
  if isReducing p f then
    let reducing_size := min |fillSignedSize f| |p.size|
    let pnl_per_unit :=
      match f.side with
      | .Sell => f.price - p.entry_price
      | .Buy => p.entry_price - f.price
    pnl_per_unit * reducing_size
  else 0

/-- `PositionManager::process_fill` (src/trading/position_manager.rs lines
64-130) acting on one symbol's position; returns the updated position and the
global realized-P&L increment (the `PnlRealized` payload, `0` when the
reduction branch does not fire). -/
def process_fill (p : Position) (f : Fill) : Position × ℚ :=
  let fill_size := fillSignedSize f
  let delta := realizedDelta p f
  let p1 : Position := { p with realized_pnl := p.realized_pnl + delta }
  let new_size := p.size + fill_size
  let p2 : Position :=
    if new_size = 0 then
      { p1 with size := 0, entry_price := 0, unrealized_pnl := 0 }
    else if p.size = 0 ∨ signPos p.size ≠ signPos new_size then
      { p1 with size := new_size, entry_price := f.price }
    else
      let total_cost := p.size * p.entry_price + fill_size * f.price
      { p1 with size := new_size, entry_price := total_cost / new_size }
  let p3 : Position := { p2 with mark_price := f.price }
  let p4 : Position :=
    if p3.size ≠ 0 then
      { p3 with unrealized_pnl := (p3.mark_price - p3.entry_price) * p3.size }
    else p3
  (p4, delta)

/-- Per-symbol slice of `PositionManager` state: the (possibly absent)
position, the global `realized_pnl` accumulator and `total_fees`. -/
structure PMState where
  position : Option Position
  realized_pnl : ℚ
  total_fees : ℚ
deriving DecidableEq, Repr

/-- The `or_insert_with` default position created on first fill
(src/trading/position_manager.rs lines 65-73). -/
def freshPosition (f : Fill) : Position :=
  { size := 0, entry_price := 0, mark_price := f.price
    unrealized_pnl := 0, realized_pnl := 0 }

/-- One `process_fill` call at the `PositionManager` level. -/
def pmProcessFill (st : PMState) (f : Fill) : PMState :=
  let p0 := match st.position with
    | some p => p
    | none => freshPosition f
  let r := process_fill p0 f
  { position := some r.1
    realized_pnl := st.realized_pnl + r.2
    total_fees := st.total_fees + f.fee }

/-- A sequence of fills processed in order. -/
def applyFills (st : PMState) (fs : List Fill) : PMState :=
  fs.foldl pmProcessFill st

/-- Empty manager state. -/
def pmInit : PMState := { position := none, realized_pnl := 0, total_fees := 0 }


/-- Concrete fills used to exhibit the partial-reduction accounting bug. -/
def fillBuy5at100 : Fill := { side := .Buy, price := 100, size := 5, fee := 0 }

/-- Sell 8 units at 110. -/
def fillSell8at110 : Fill := { side := .Sell, price := 110, size := 8, fee := 0 }

/-- Sell 4 units at 110. -/
def fillSell4at110 : Fill := { side := .Sell, price := 110, size := 4, fee := 0 }

/-- C1: the accumulated `realized_pnl` is NOT independent of fill granularity.
Starting flat, Buy 5 @ 100 then Sell 8 @ 110 realizes 50, but delivering the
same sell quantity as Sell 4 @ 110 twice realizes 90: the first partial
reduction falls into the weighted-average branch of `process_fill` (commented
"Adding to existing position" in the source) with a negative signed delta,
rewriting `entry_price` from 100 to 60, so the second fill realizes
(110 - 60) * 1 = 50 instead of (110 - 100) * 1 = 10 on top of the 40 already
realized. This theorem evaluates the transliterated code at that failing
input. -/
theorem claim_C1 :
    (applyFills pmInit [fillBuy5at100, fillSell8at110]).realized_pnl = 50 ∧
    (applyFills pmInit [fillBuy5at100, fillSell4at110, fillSell4at110]).realized_pnl = 90 ∧
    (applyFills pmInit [fillBuy5at100, fillSell4at110]).position.map Position.entry_price
      = some 60 := by
  refine ⟨?_, ?_, ?_⟩ <;>
    norm_num [applyFills, pmProcessFill, process_fill, realizedDelta, isReducing,
      fillSignedSize, fillSignPositive, signPos, freshPosition, pmInit,
      fillBuy5at100, fillSell8at110, fillSell4at110, Option.map]

/-- C2: a long position of +5 hit by a Sell fill of 8 at price `p` flips to
size -3 with `entry_price` exactly `p`; and in general, after the reducing
portion, `process_fill` either closes the position exactly (size and
entry_price zeroed), flips it or opens it fresh (entry_price set to the fill
price), or lands on the same sign as before (entry_price set to the
volume-weighted average of old and new notional). -/
theorem claim_C2 :
    (∀ entry p mark upnl rpnl fee : ℚ,
      (process_fill
          { size := 5, entry_price := entry, mark_price := mark,
            unrealized_pnl := upnl, realized_pnl := rpnl }
          { side := .Sell, price := p, size := 8, fee := fee }).1.size = -3 ∧
      (process_fill
          { size := 5, entry_price := entry, mark_price := mark,
            unrealized_pnl := upnl, realized_pnl := rpnl }
          { side := .Sell, price := p, size := 8, fee := fee }).1.entry_price = p) ∧
    (∀ (pos : Position) (f : Fill),
      (pos.size + fillSignedSize f = 0 →
        (process_fill pos f).1.size = 0 ∧ (process_fill pos f).1.entry_price = 0) ∧
      (pos.size + fillSignedSize f ≠ 0 →
        (pos.size = 0 ∨ signPos pos.size ≠ signPos (pos.size + fillSignedSize f)) →
        (process_fill pos f).1.size = pos.size + fillSignedSize f ∧
        (process_fill pos f).1.entry_price = f.price) ∧
      (pos.size + fillSignedSize f ≠ 0 → pos.size ≠ 0 →
        signPos pos.size = signPos (pos.size + fillSignedSize f) →
        (process_fill pos f).1.size = pos.size + fillSignedSize f ∧
        (process_fill pos f).1.entry_price
          = (pos.size * pos.entry_price + fillSignedSize f * f.price)
              / (pos.size + fillSignedSize f))) := by
  constructor
  · intro entry p mark upnl rpnl fee
    norm_num [process_fill, fillSignedSize, signPos, realizedDelta, isReducing,
      fillSignPositive]
  · intro pos f
    refine ⟨?_, ?_, ?_⟩
    · intro h
      simp only [process_fill]
      rw [if_pos h]
      simp
    · intro h hflip
      simp only [process_fill]
      rw [if_neg h, if_pos hflip]
      by_cases hz : pos.size + fillSignedSize f ≠ 0 <;> simp [hz]
    · intro h hnz hsign
      have hcond : ¬(pos.size = 0 ∨ ¬signPos pos.size = signPos (pos.size + fillSignedSize f)) :=
        not_or.mpr ⟨hnz, not_not.mpr hsign⟩
      simp only [process_fill]
      rw [if_neg h, if_neg hcond]
      simp [h]

/-- C2 witness: instantiating the flip branch (long +5, Sell 8 at 110) and the
exact-close branch (long +5, Sell 5 at 110) at concrete inputs. -/
theorem claim_C2_witness :
    ((process_fill
        { size := 5, entry_price := 100, mark_price := 100,
          unrealized_pnl := 0, realized_pnl := 0 }
        { side := .Sell, price := 110, size := 5, fee := 0 }).1.size = 0 ∧
     (process_fill
        { size := 5, entry_price := 100, mark_price := 100,
          unrealized_pnl := 0, realized_pnl := 0 }
        { side := .Sell, price := 110, size := 5, fee := 0 }).1.entry_price = 0) :=
  (claim_C2.2
      { size := 5, entry_price := 100, mark_price := 100,
        unrealized_pnl := 0, realized_pnl := 0 }
      { side := .Sell, price := 110, size := 5, fee := 0 }).1
    (by norm_num [fillSignedSize])


/-- `NewOrder` from src/trading/types.rs. -/
structure NewOrder where
  symbol : String
  side : Side
  order_type : OrderType
  price : ℚ
  size : ℚ
  client_id : Option String
deriving DecidableEq, Repr

/-- `Order` from src/trading/types.rs (ids and timestamps omitted). -/
structure Order where
  symbol : String
  side : Side
  order_type : OrderType
  price : ℚ
  size : ℚ
  filled_size : ℚ
  remaining_size : ℚ
  status : OrderStatus
deriving DecidableEq, Repr

/-- `OrderManager::add_order` (src/trading/order_manager.rs lines 40-69): the
freshly inserted order record. -/
def add_order (n : NewOrder) : Order :=
  { symbol := n.symbol, side := n.side, order_type := n.order_type
    price := n.price, size := n.size, filled_size := 0
    remaining_size := n.size, status := .Pending }

/-- `OrderManager::update_order` (src/trading/order_manager.rs lines 71-88)
restricted to the stored order record: sets the status and, when a filled
size is supplied, overwrites `filled_size` and recomputes `remaining_size`. -/
def update_order (o : Order) (status : OrderStatus) (filled_size : Option ℚ) : Order :=
  let o1 : Order := { o with status := status }
  match filled_size with
  | some filled => { o1 with filled_size := filled, remaining_size := o1.size - filled }
  | none => o1

/-- A sequence of `update_order` calls applied in order. -/
def applyUpdates (o : Order) (us : List (OrderStatus × Option ℚ)) : Order :=
  us.foldl (fun acc u => update_order acc u.1 u.2) o

lemma applyUpdates_invariant (us : List (OrderStatus × Option ℚ)) :
    ∀ (o : Order) (sz : ℚ), o.size = sz →
    0 ≤ o.filled_size → o.filled_size ≤ sz →
    o.remaining_size = o.size - o.filled_size →
    (∀ u ∈ us, ∀ q, u.2 = some q → 0 ≤ q ∧ q ≤ sz) →
    (applyUpdates o us).size = sz ∧
    0 ≤ (applyUpdates o us).filled_size ∧
    (applyUpdates o us).filled_size ≤ sz ∧
    (applyUpdates o us).remaining_size
      = (applyUpdates o us).size - (applyUpdates o us).filled_size := by
  induction us with
  | nil =>
    intro o sz hsz h0 h1 hrem _
    exact ⟨hsz, h0, h1, by simpa [applyUpdates, hsz] using hrem⟩
  | cons u us ih =>
    intro o sz hsz h0 h1 hrem hall
    have hstep : applyUpdates o (u :: us) = applyUpdates (update_order o u.1 u.2) us := rfl
    rw [hstep]
    rcases hq : u.2 with _ | q
    · exact ih _ sz (by simp [update_order, hq, hsz])
        (by simpa [update_order, hq] using h0)
        (by simpa [update_order, hq] using h1)
        (by simp [update_order, hq]; simpa using hrem)
        (fun v hv => hall v (List.mem_cons_of_mem u hv))
    · have hqs := hall u (List.mem_cons_self u us) q hq
      exact ih _ sz (by simp [update_order, hq, hsz])
        (by simp [update_order, hq]; exact hqs.1)
        (by simp [update_order, hq]; exact hqs.2)
        (by simp [update_order, hq])
        (fun v hv => hall v (List.mem_cons_of_mem u hv))

/-- C3 (amended): starting from `add_order` on a non-negative order size,
after any sequence of `update_order` calls in which every supplied
`filled_size` argument lies between 0 and the order size, the invariant
`remaining_size = size - filled_size` holds and `filled_size` and
`remaining_size` are both non-negative. (Unrestricted filled arguments
falsify the non-negativity part; see the counterexample.) -/
theorem claim_C3 (n : NewOrder) (us : List (OrderStatus × Option ℚ))
    (hsz : 0 ≤ n.size)
    (hall : ∀ u ∈ us, ∀ q, u.2 = some q → 0 ≤ q ∧ q ≤ n.size) :
    (applyUpdates (add_order n) us).remaining_size
      = (applyUpdates (add_order n) us).size
        - (applyUpdates (add_order n) us).filled_size ∧
    0 ≤ (applyUpdates (add_order n) us).filled_size ∧
    0 ≤ (applyUpdates (add_order n) us).remaining_size := by
  have h := applyUpdates_invariant us (add_order n) n.size
    (by simp [add_order]) (by simp [add_order]) (by simpa [add_order] using hsz)
    (by simp [add_order]) hall
  refine ⟨h.2.2.2, h.2.1, ?_⟩
  rw [h.2.2.2, h.1]
  linarith [h.2.2.1]

/-- A concrete order request of size 2. -/
def newOrder2 : NewOrder :=
  { symbol := "BTC", side := .Buy, order_type := .Limit, price := 100
    size := 2, client_id := none }

/-- C3 counterexample: `update_order` performs no validation of the supplied
filled size, so updating a size-2 order with `filled_size = 3` drives
`remaining_size` to -1, refuting the claim that `filled_size` and
`remaining_size` stay non-negative under every update call. -/
theorem claim_C3_counterexample :
    (update_order (add_order newOrder2) .Filled (some 3)).remaining_size < 0 := by
  norm_num [update_order, add_order, newOrder2]

/-- C3 witness: the amended invariant at a concrete order (size 2) and update
sequence (partial fill of 1, then full fill of 2). -/
theorem claim_C3_witness :
    (applyUpdates (add_order newOrder2)
        [(OrderStatus.PartiallyFilled, some 1), (OrderStatus.Filled, some 2)]).remaining_size
      = (applyUpdates (add_order newOrder2)
          [(OrderStatus.PartiallyFilled, some 1), (OrderStatus.Filled, some 2)]).size
        - (applyUpdates (add_order newOrder2)
            [(OrderStatus.PartiallyFilled, some 1), (OrderStatus.Filled, some 2)]).filled_size ∧
    0 ≤ (applyUpdates (add_order newOrder2)
        [(OrderStatus.PartiallyFilled, some 1), (OrderStatus.Filled, some 2)]).filled_size ∧
    0 ≤ (applyUpdates (add_order newOrder2)
        [(OrderStatus.PartiallyFilled, some 1), (OrderStatus.Filled, some 2)]).remaining_size := by
  refine claim_C3 newOrder2 _ (by norm_num [newOrder2]) ?_
  intro u hu q hq
  simp only [List.mem_cons, List.not_mem_nil, or_false] at hu
  rcases hu with h | h <;> subst h <;>
    simp only [Option.some.injEq] at hq <;> subst hq <;> norm_num [newOrder2]


/-- `RiskLimits` from src/trading/types.rs. -/
structure RiskLimits where
  max_position_size : ℚ
  max_daily_loss : ℚ
  max_order_size : ℚ
  max_orders_per_side : ℕ
deriving DecidableEq, Repr

/-- `PositionLimit` from src/trading/risk_manager.rs. -/
structure PositionLimit where
  symbol : String
  max_long : ℚ
  max_short : ℚ
  max_net : ℚ
  current_long : ℚ
  current_short : ℚ
  current_net : ℚ
deriving DecidableEq, Repr

/-- `ExposureLimit` from src/trading/risk_manager.rs. -/
structure ExposureLimit where
  symbol : String
  max_notional : ℚ
  current_notional : ℚ
  max_leverage : ℚ
  current_leverage : ℚ
deriving DecidableEq, Repr

/-- `CircuitBreakerType` from src/trading/risk_manager.rs. -/
inductive CircuitBreakerType where
  | MaxDailyLoss
  | MaxPositionSize
  | MaxExposure
  | MaxVolatility
  | MaxTradesPerMinute
  | MaxOrdersPerSecond
deriving DecidableEq, Repr

/-- `CircuitBreaker` from src/trading/risk_manager.rs; `triggered_at` is an
abstract clock tick. -/
structure CircuitBreaker where
  id : String
  symbol : String
  trigger_type : CircuitBreakerType
  threshold : ℚ
  current_value : ℚ
  is_triggered : Bool
  triggered_at : Option ℕ
  cooldown_duration : ℕ
deriving DecidableEq, Repr

/-- The slice of `RiskManager` state read by `check_order_risk`: the
per-symbol limit maps, the circuit-breaker list and the daily P&L
accumulator. -/
structure RiskState where
  risk_limits : String → Option RiskLimits
  position_limits : String → Option PositionLimit
  exposure_limits : String → Option ExposureLimit
  circuit_breakers : List CircuitBreaker
  daily_pnl : ℚ

/-- The resulting net position of `check_order_risk`
(src/trading/risk_manager.rs lines 190-193). -/
def resultingNet (pl : PositionLimit) (o : NewOrder) : ℚ :=
  match o.side with
  | .Buy => pl.current_net + o.size
  | .Sell => pl.current_net - o.size

/-- Rejection message of check (a). -/
def positionLimitMsg (v m : ℚ) : String :=
  "Order would exceed position limit: " ++ toString v ++ " > " ++ toString m

/-- Rejection message of check (b). -/
def exposureLimitMsg (v m : ℚ) : String :=
  "Order would exceed exposure limit: " ++ toString v ++ " > " ++ toString m

/-- Rejection message of check (c). -/
def dailyLossMsg (p m : ℚ) : String :=
  "Daily loss limit exceeded: " ++ toString p ++ " < " ++ toString m

/-- Rejection message of check (d). -/
def breakerMsg (id : String) : String :=
  "Circuit breaker " ++ id ++ " is still active"

/-- The per-breaker rejection condition inside the loop of
`check_order_risk` (src/trading/risk_manager.rs lines 232-242): same symbol,
triggered, and a trigger timestamp still within the cooldown window. -/
def breakerActive (b : CircuitBreaker) (symbol : String) (now : ℕ) : Bool :=
  b.symbol == symbol && b.is_triggered &&
    match b.triggered_at with
    | some t => decide (now - t < b.cooldown_duration)
    | none => false

/-- Stage (d) of `check_order_risk`: the circuit-breaker loop, erroring on
the first active breaker for the order's symbol. -/
def check_breakers (st : RiskState) (now : ℕ) (o : NewOrder) : Except String Unit :=
  match st.circuit_breakers.find? (fun b => breakerActive b o.symbol now) with
  | some b => .error (breakerMsg b.id)
  | none => .ok ()

/-- Stage (c) of `check_order_risk`: the daily-loss check, falling through to
the breaker loop. -/
def check_daily_loss (st : RiskState) (now : ℕ) (o : NewOrder) : Except String Unit :=
  match st.risk_limits o.symbol with
  | some rl =>
      if st.daily_pnl < -rl.max_daily_loss then
        .error (dailyLossMsg st.daily_pnl (-rl.max_daily_loss))
      else check_breakers st now o
  | none => check_breakers st now o

/-- Stage (b) of `check_order_risk`: the exposure check, falling through to
the daily-loss check. -/
def check_exposure (st : RiskState) (now : ℕ) (o : NewOrder) : Except String Unit :=
  match st.exposure_limits o.symbol with
  | some el =>
      let order_notional := o.price * o.size
      let new_exposure := el.current_notional + order_notional
      if el.max_notional < new_exposure then
        .error (exposureLimitMsg new_exposure el.max_notional)
      else check_daily_loss st now o
  | none => check_daily_loss st now o

/-- `RiskManager::check_order_risk` (src/trading/risk_manager.rs lines
185-247): the early-return chain (a) position limit, (b) exposure limit,
(c) daily loss, (d) circuit breakers. The Rust function takes `&self` and
only reads; the embedding returns the state unchanged alongside the result. -/
def check_order_risk (st : RiskState) (now : ℕ) (o : NewOrder) :
    RiskState × Except String Unit :=
  (st,
    match st.position_limits o.symbol with
    | some pl =>
        let new_position := resultingNet pl o
        if pl.max_net < |new_position| then
          .error (positionLimitMsg |new_position| pl.max_net)
        else check_exposure st now o
    | none => check_exposure st now o)

/-- Spec check (a): "would resulting net position exceed max_net". -/
def specPositionOk (st : RiskState) (o : NewOrder) : Bool :=
  match st.position_limits o.symbol with
  | some pl => decide (|resultingNet pl o| ≤ pl.max_net)
  | none => true

/-- Spec check (b): "would resulting notional exceed max_notional". -/
def specExposureOk (st : RiskState) (o : NewOrder) : Bool :=
  match st.exposure_limits o.symbol with
  | some el => decide (el.current_notional + o.price * o.size ≤ el.max_notional)
  | none => true

/-- Spec check (c): "is cumulative daily P&L already below -max_daily_loss". -/
def specDailyOk (st : RiskState) (o : NewOrder) : Bool :=
  match st.risk_limits o.symbol with
  | some rl => decide (-rl.max_daily_loss ≤ st.daily_pnl)
  | none => true

/-- Spec check (d): "is any circuit breaker for this symbol currently within
its cooldown window". -/
def specBreakerOk (st : RiskState) (now : ℕ) (o : NewOrder) : Bool :=
  st.circuit_breakers.all (fun b => !breakerActive b o.symbol now)

/-- The message check (a) fails with. -/
def specPositionMsg (st : RiskState) (o : NewOrder) : String :=
  match st.position_limits o.symbol with
  | some pl => positionLimitMsg |resultingNet pl o| pl.max_net
  | none => ""

/-- The message check (b) fails with. -/
def specExposureMsg (st : RiskState) (o : NewOrder) : String :=
  match st.exposure_limits o.symbol with
  | some el => exposureLimitMsg (el.current_notional + o.price * o.size) el.max_notional
  | none => ""

/-- The message check (c) fails with. -/
def specDailyMsg (st : RiskState) (o : NewOrder) : String :=
  match st.risk_limits o.symbol with
  | some rl => dailyLossMsg st.daily_pnl (-rl.max_daily_loss)
  | none => ""

/-- The message check (d) fails with: the first breaker within cooldown. -/
def specBreakerMsg (st : RiskState) (now : ℕ) (o : NewOrder) : String :=
  match st.circuit_breakers.find? (fun b => breakerActive b o.symbol now) with
  | some b => breakerMsg b.id
  | none => ""

/-- Composition of the four spec checks in order (a), (b), (c), (d): the
descriptive error of the first failing check, or none. -/
def specFirstFailure (st : RiskState) (now : ℕ) (o : NewOrder) : Option String :=
  if specPositionOk st o = false then some (specPositionMsg st o)
  else if specExposureOk st o = false then some (specExposureMsg st o)
  else if specDailyOk st o = false then some (specDailyMsg st o)
  else if specBreakerOk st now o = false then some (specBreakerMsg st now o)
  else none

lemma check_breakers_eq (st : RiskState) (now : ℕ) (o : NewOrder) :
    check_breakers st now o
      = if specBreakerOk st now o = false then Except.error (specBreakerMsg st now o)
        else Except.ok () := by
  unfold check_breakers specBreakerOk specBreakerMsg
  cases hf : st.circuit_breakers.find? (fun b => breakerActive b o.symbol now) with
  | none =>
      have hall : ∀ b ∈ st.circuit_breakers, ¬(breakerActive b o.symbol now = true) := by
        intro b hb
        have := List.find?_eq_none.mp hf b hb
        simp [this]
      have : st.circuit_breakers.all (fun b => !breakerActive b o.symbol now) = true := by
        rw [List.all_eq_true]
        intro b hb
        simp [hall b hb]
      simp [this]
  | some b =>
      have hmem := List.mem_of_find?_eq_some hf
      have hpred := List.find?_some hf
      have : st.circuit_breakers.all (fun b => !breakerActive b o.symbol now) = false := by
        rw [List.all_eq_false]
        exact ⟨b, hmem, by simp [hpred]⟩
      simp [this]

lemma check_daily_loss_eq (st : RiskState) (now : ℕ) (o : NewOrder) :
    check_daily_loss st now o
      = if specDailyOk st o = false then Except.error (specDailyMsg st o)
        else check_breakers st now o := by
  unfold check_daily_loss specDailyOk specDailyMsg
  cases hrl : st.risk_limits o.symbol with
  | none => simp
  | some rl =>
      by_cases hd : st.daily_pnl < -rl.max_daily_loss
      · simp [hd, not_le.mpr hd]
      · simp [hd, not_lt.mp hd]

lemma check_exposure_eq (st : RiskState) (now : ℕ) (o : NewOrder) :
    check_exposure st now o
      = if specExposureOk st o = false then Except.error (specExposureMsg st o)
        else check_daily_loss st now o := by
  unfold check_exposure specExposureOk specExposureMsg
  cases hel : st.exposure_limits o.symbol with
  | none => simp
  | some el =>
      by_cases he : el.max_notional < el.current_notional + o.price * o.size
      · simp [he, not_le.mpr he]
      · simp [he, not_lt.mp he]

lemma check_order_risk_eq_firstFailure (st : RiskState) (now : ℕ) (o : NewOrder) :
    (check_order_risk st now o).2
      = match specFirstFailure st now o with
        | some m => Except.error m
        | none => Except.ok () := by
  unfold check_order_risk specFirstFailure
  rw [check_exposure_eq, check_daily_loss_eq, check_breakers_eq]
  cases hpl : st.position_limits o.symbol with
  | none =>
      simp only [specPositionOk, specPositionMsg, hpl]
      by_cases h2 : specExposureOk st o = false <;>
        by_cases h3 : specDailyOk st o = false <;>
          by_cases h4 : specBreakerOk st now o = false <;>
            simp [h2, h3, h4]
  | some pl =>
      simp only [specPositionOk, specPositionMsg, hpl]
      by_cases h1 : pl.max_net < |resultingNet pl o|
      · simp [h1, not_le.mpr h1]
      · have h1' : |resultingNet pl o| ≤ pl.max_net := not_lt.mp h1
        by_cases h2 : specExposureOk st o = false <;>
          by_cases h3 : specDailyOk st o = false <;>
            by_cases h4 : specBreakerOk st now o = false <;>
              simp [h1, h1', h2, h3, h4]

lemma specFirstFailure_eq_none_iff (st : RiskState) (now : ℕ) (o : NewOrder) :
    specFirstFailure st now o = none
      ↔ specPositionOk st o = true ∧ specExposureOk st o = true ∧
        specDailyOk st o = true ∧ specBreakerOk st now o = true := by
  unfold specFirstFailure
  cases h1 : specPositionOk st o <;> cases h2 : specExposureOk st o <;>
    cases h3 : specDailyOk st o <;> cases h4 : specBreakerOk st now o <;> simp

lemma check_order_risk_ok_iff (st : RiskState) (now : ℕ) (o : NewOrder) :
    (check_order_risk st now o).2 = Except.ok ()
      ↔ specPositionOk st o = true ∧ specExposureOk st o = true ∧
        specDailyOk st o = true ∧ specBreakerOk st now o = true := by
  rw [check_order_risk_eq_firstFailure st now o, ← specFirstFailure_eq_none_iff st now o]
  cases specFirstFailure st now o <;> simp

/-- C4: `check_order_risk` never modifies the risk state, its result is the
descriptive error of the first failing check in the order (a) net position
versus max_net, (b) notional versus max_notional, (c) daily P&L versus
-max_daily_loss, (d) circuit breaker within cooldown, and it accepts exactly
when all four checks pass. -/
theorem claim_C4 (st : RiskState) (now : ℕ) (o : NewOrder) :
    (check_order_risk st now o).1 = st ∧
    ((check_order_risk st now o).2
      = match specFirstFailure st now o with
        | some m => Except.error m
        | none => Except.ok ()) ∧
    ((check_order_risk st now o).2 = Except.ok ()
      ↔ specPositionOk st o = true ∧ specExposureOk st o = true ∧
        specDailyOk st o = true ∧ specBreakerOk st now o = true) := by
  exact ⟨rfl, check_order_risk_eq_firstFailure st now o, check_order_risk_ok_iff st now o⟩


/-- C5: a breaker triggered at tick `T` with cooldown `C` makes
`check_order_risk` reject every order for its symbol at all ticks
`T ≤ t < T + C` (regardless of the other limits), and at ticks `t ≥ T + C`
it no longer rejects: the order is accepted whenever the other three checks
pass. -/
theorem claim_C5 (st : RiskState) (o : NewOrder) (b : CircuitBreaker) (T t : ℕ)
    (hbs : st.circuit_breakers = [b]) (hsym : b.symbol = o.symbol)
    (htrig : b.is_triggered = true) (hat : b.triggered_at = some T)
    (hTt : T ≤ t) :
    (t < T + b.cooldown_duration → (check_order_risk st t o).2 ≠ Except.ok ()) ∧
    (T + b.cooldown_duration ≤ t →
      specPositionOk st o = true → specExposureOk st o = true →
      specDailyOk st o = true → (check_order_risk st t o).2 = Except.ok ()) := by
  constructor
  · intro hlt hok
    have hactive : breakerActive b o.symbol t = true := by
      unfold breakerActive
      rw [hat, htrig, hsym]
      simp only [beq_self_eq_true, Bool.true_and, Bool.and_true, decide_eq_true_eq]
      omega
    have h4 : specBreakerOk st t o = true :=
      ((check_order_risk_ok_iff st t o).mp hok).2.2.2
    unfold specBreakerOk at h4
    rw [hbs, List.all_eq_true] at h4
    have := h4 b (List.mem_singleton_self b)
    rw [hactive] at this
    simp at this
  · intro hge h1 h2 h3
    have hinactive : breakerActive b o.symbol t = false := by
      unfold breakerActive
      rw [hat]
      simp only [Bool.and_eq_false_iff, decide_eq_false_iff_not]
      right
      omega
    have h4 : specBreakerOk st t o = true := by
      unfold specBreakerOk
      rw [hbs, List.all_eq_true]
      intro x hx
      rw [List.mem_singleton] at hx
      subst hx
      simp [hinactive]
    exact (check_order_risk_ok_iff st t o).mpr ⟨h1, h2, h3, h4⟩


/-- A concrete breaker for BTC triggered at tick 5 with a 10-tick cooldown. -/
def breakerBTC : CircuitBreaker :=
  { id := "cb1", symbol := "BTC", trigger_type := .MaxDailyLoss
    threshold := 0, current_value := 0, is_triggered := true
    triggered_at := some 5, cooldown_duration := 10 }

/-- A risk state holding only that breaker (no limits configured). -/
def riskStateBTC : RiskState :=
  { risk_limits := fun _ => none, position_limits := fun _ => none
    exposure_limits := fun _ => none, circuit_breakers := [breakerBTC]
    daily_pnl := 0 }

/-- A concrete BTC order. -/
def orderBTC : NewOrder :=
  { symbol := "BTC", side := .Buy, order_type := .Limit, price := 100
    size := 1, client_id := none }

/-- C5 witness: with the breaker triggered at 5 and cooldown 10, the order is
rejected at tick 7 (inside the window) and accepted at tick 20 (after it). -/
theorem claim_C5_witness :
    (check_order_risk riskStateBTC 7 orderBTC).2 ≠ Except.ok () ∧
    (check_order_risk riskStateBTC 20 orderBTC).2 = Except.ok () :=
  ⟨(claim_C5 riskStateBTC orderBTC breakerBTC 5 7 rfl rfl rfl rfl
        (by decide)).1 (by decide),
   (claim_C5 riskStateBTC orderBTC breakerBTC 5 20 rfl rfl rfl rfl
        (by decide)).2 (by decide) rfl rfl rfl⟩


/-- `OrderActionType` from src/trading/types.rs. -/
inductive OrderActionType where
  | Place
  | Cancel
  | Modify
deriving DecidableEq, Repr

/-- `OrderAction` from src/trading/types.rs (`order_id` abstracted to ℕ;
`generate_orders` always leaves it `none`). -/
structure OrderAction where
  action_type : OrderActionType
  order : Option NewOrder
  order_id : Option ℕ
deriving DecidableEq, Repr

/-- `MarketMakingConfig` from src/strategies/market_making.rs (`symbol` is
`base_config.symbol`; refresh timing fields omitted). -/
structure MarketMakingConfig where
  symbol : String
  spread_bps : ℕ
  order_size : ℚ
  max_orders_per_side : ℕ
  inventory_target : ℚ
  inventory_skew_factor : ℚ
  min_edge_bps : ℕ
deriving DecidableEq, Repr

/-- The slice of `MarketMakingStrategy` state read by the quote ladder. -/
structure MarketMakingStrategy where
  config : MarketMakingConfig
  current_inventory : ℚ
deriving DecidableEq, Repr

/-- `MarketMakingStrategy::calculate_spread`
(src/strategies/market_making.rs lines 85-95). -/
def calculate_spread (s : MarketMakingStrategy) (fair_price : ℚ) : ℚ :=
  let base_spread := fair_price * (s.config.spread_bps : ℚ) / 10000
  let inventory_adjustment := s.current_inventory * s.config.inventory_skew_factor
  let min_spread := fair_price * (s.config.min_edge_bps : ℚ) / 10000
  max (base_spread + |inventory_adjustment|) min_spread

/-- `MarketMakingStrategy::generate_orders`
(src/strategies/market_making.rs lines 97-146). -/
def generate_orders (s : MarketMakingStrategy) (fair_price spread : ℚ) :
    List OrderAction :=
  let inventory_skew := s.current_inventory * s.config.inventory_skew_factor
  let half_spread := spread / 2
  let bid_price := fair_price - half_spread - inventory_skew
  let ask_price := fair_price + half_spread - inventory_skew
  let buys := (List.range s.config.max_orders_per_side).map (fun i =>
    { action_type := .Place
      order := some
        { symbol := s.config.symbol, side := .Buy, order_type := .Limit
          price := bid_price - (i : ℚ) * (spread / 4)
          size := s.config.order_size
          client_id := some ("mm_buy_" ++ toString i) }
      order_id := none })
  let sells := (List.range s.config.max_orders_per_side).map (fun i =>
    { action_type := .Place
      order := some
        { symbol := s.config.symbol, side := .Sell, order_type := .Limit
          price := ask_price + (i : ℚ) * (spread / 4)
          size := s.config.order_size
          client_id := some ("mm_sell_" ++ toString i) }
      order_id := none })
  buys ++ sells

/-- Prices of the Place actions on one side, in emission order. -/
def placePrices (acts : List OrderAction) (sd : Side) : List ℚ :=
  acts.filterMap (fun a =>
    match a.action_type, a.order with
    | .Place, some o => if o.side = sd then some o.price else none
    | _, _ => none)

/-- C6: with `max_orders_per_side = 3`, `spread_bps = 20` and fair price 100,
the ladder consists of exactly 3 Place actions per side, every action is a
Place of the configured `order_size`, the i-th bid sits at
`fair - spread/2 - inventory*skew - i*(spread/4)` with the ask mirrored at
`fair + spread/2 - inventory*skew + i*(spread/4)`, bids strictly decrease and
asks strictly increase along the ladder. -/
theorem claim_C6 (s : MarketMakingStrategy)
    (hn : s.config.max_orders_per_side = 3) (hb : s.config.spread_bps = 20) :
    (∀ a ∈ generate_orders s 100 (calculate_spread s 100),
      a.action_type = .Place) ∧
    (∀ a ∈ generate_orders s 100 (calculate_spread s 100),
      ∀ o, a.order = some o → o.size = s.config.order_size) ∧
    placePrices (generate_orders s 100 (calculate_spread s 100)) .Buy
      = (List.range 3).map (fun i =>
          100 - calculate_spread s 100 / 2
            - s.current_inventory * s.config.inventory_skew_factor
            - (i : ℚ) * (calculate_spread s 100 / 4)) ∧
    placePrices (generate_orders s 100 (calculate_spread s 100)) .Sell
      = (List.range 3).map (fun i =>
          100 + calculate_spread s 100 / 2
            - s.current_inventory * s.config.inventory_skew_factor
            + (i : ℚ) * (calculate_spread s 100 / 4)) ∧
    List.Chain' (fun a b => b < a)
      (placePrices (generate_orders s 100 (calculate_spread s 100)) .Buy) ∧
    List.Chain' (fun a b => a < b)
      (placePrices (generate_orders s 100 (calculate_spread s 100)) .Sell) := by
  have hsp : (1 / 5 : ℚ) ≤ calculate_spread s 100 := by
    unfold calculate_spread
    rw [hb]
    refine le_trans ?_ (le_max_left _ _)
    push_cast
    linarith [abs_nonneg (s.current_inventory * s.config.inventory_skew_factor)]
  have hbuy : placePrices (generate_orders s 100 (calculate_spread s 100)) .Buy
      = (List.range 3).map (fun i =>
          100 - calculate_spread s 100 / 2
            - s.current_inventory * s.config.inventory_skew_factor
            - (i : ℚ) * (calculate_spread s 100 / 4)) := by
    unfold placePrices generate_orders
    rw [hn]
    rfl
  have hsell : placePrices (generate_orders s 100 (calculate_spread s 100)) .Sell
      = (List.range 3).map (fun i =>
          100 + calculate_spread s 100 / 2
            - s.current_inventory * s.config.inventory_skew_factor
            + (i : ℚ) * (calculate_spread s 100 / 4)) := by
    unfold placePrices generate_orders
    rw [hn]
    rfl
  refine ⟨?_, ?_, hbuy, hsell, ?_, ?_⟩
  · intro a ha
    simp only [generate_orders, hn] at ha
    simp only [List.range, List.range.loop, List.map, List.mem_append,
      List.mem_cons, List.not_mem_nil, or_false] at ha
    rcases ha with (h | h | h) | (h | h | h) <;> subst h <;> rfl
  · intro a ha o ho
    simp only [generate_orders, hn] at ha
    simp only [List.range, List.range.loop, List.map, List.mem_append,
      List.mem_cons, List.not_mem_nil, or_false] at ha
    rcases ha with (h | h | h) | (h | h | h) <;> subst h <;>
      (simp only [Option.some.injEq] at ho; subst ho; rfl)
  · rw [hbuy]
    simp only [List.range, List.range.loop, List.map, List.chain'_cons,
      List.chain'_singleton, and_true]
    push_cast
    constructor <;> linarith
  · rw [hsell]
    simp only [List.range, List.range.loop, List.map, List.chain'_cons,
      List.chain'_singleton, and_true]
    push_cast
    constructor <;> linarith


/-- The default market-making configuration of the source
(src/strategies/market_making.rs lines 24-37) with symbol "BTC" and neutral
inventory. -/
def mmStrategy0 : MarketMakingStrategy :=
  { config :=
      { symbol := "BTC", spread_bps := 20, order_size := 1
        max_orders_per_side := 3, inventory_target := 0
        inventory_skew_factor := 1 / 10, min_edge_bps := 5 }
    current_inventory := 0 }

/-- C6 witness: the ladder monotonicity at the default configuration. -/
theorem claim_C6_witness :
    List.Chain' (fun a b => b < a)
      (placePrices (generate_orders mmStrategy0 100 (calculate_spread mmStrategy0 100)) .Buy) ∧
    List.Chain' (fun a b => a < b)
      (placePrices (generate_orders mmStrategy0 100 (calculate_spread mmStrategy0 100)) .Sell) :=
  ⟨(claim_C6 mmStrategy0 rfl rfl).2.2.2.2.1,
   (claim_C6 mmStrategy0 rfl rfl).2.2.2.2.2⟩


/-- Lifecycle of one order inside the retry processor: still in the retry
queue with its current `retry_count`, or removed for good. -/
inductive RetryState where
  | pending (retry_count : ℕ)
  | dropped
deriving DecidableEq, Repr

/-- One pass of the retry-processor loop body over a due request whose
resubmission always fails (src/api/trading_api.rs lines 318-350): once
`retry_count >= max_retries` the order is removed from the pending set and
exactly one terminal error event is emitted; otherwise `retry_count` is
incremented and the order is resubmitted (failing, so re-enqueued). The two
counters report resubmissions and terminal error events of this pass. -/
def retryStep (max_retries : ℕ) : RetryState → RetryState × ℕ × ℕ
  | .dropped => (.dropped, 0, 0)
  | .pending r =>
      if max_retries ≤ r then (.dropped, 0, 1)
      else (.pending (r + 1), 1, 0)

/-- `n` processor passes over an order entering the queue with
`retry_count = 0`, accumulating total resubmissions and error events. -/
def retryRun (max_retries : ℕ) : ℕ → RetryState × ℕ × ℕ
  | 0 => (.pending 0, 0, 0)
  | n + 1 =>
      let acc := retryRun max_retries n
      let step := retryStep max_retries acc.1
      (step.1, acc.2.1 + step.2.1, acc.2.2 + step.2.2)

/-- C8: complete characterization of the retry pipeline for an order whose
resubmission always fails. After `n` passes the order is still pending with
`retry_count = n` while `n ≤ max_retries` (so `retry_count` never exceeds
`max_retries`) and dropped afterwards; the total number of resubmissions is
`min n max_retries` — exactly `max_retries` once the order is dropped, and
never growing again — and exactly one terminal error event has been emitted
once `n > max_retries`, never zero and never two. -/
theorem claim_C8 (m n : ℕ) :
    retryRun m n
      = (if n ≤ m then RetryState.pending n else RetryState.dropped,
         min n m,
         if n ≤ m then 0 else 1) := by
  induction n with
  | zero => simp [retryRun]
  | succ n ih =>
      have hstep : retryRun m (n + 1)
          = ((retryStep m (retryRun m n).1).1,
             (retryRun m n).2.1 + (retryStep m (retryRun m n).1).2.1,
             (retryRun m n).2.2 + (retryStep m (retryRun m n).1).2.2) := rfl
      rw [hstep, ih]
      by_cases h1 : n ≤ m
      · simp only [if_pos h1, retryStep]
        by_cases h2 : m ≤ n
        · have heq : n = m := le_antisymm h1 h2
          subst heq
          simp only [le_refl, if_pos, Prod.mk.injEq]
          refine ⟨?_, ?_, ?_⟩
          · rw [if_neg (by omega)]
          · omega
          · rw [if_neg (by omega)]
        · simp only [if_neg h2, Prod.mk.injEq]
          refine ⟨?_, ?_, ?_⟩
          · rw [if_pos (by omega)]
          · omega
          · rw [if_pos (by omega)]
      · simp only [if_neg h1, retryStep, Prod.mk.injEq]
        refine ⟨?_, ?_, ?_⟩
        · rw [if_neg (by omega)]
        · omega
        · rw [if_neg (by omega)]


/-- `EventPriority` from src/events/types.rs. -/
inductive EventPriority where
  | Low
  | Normal
  | High
  | Critical
deriving DecidableEq, Repr

/-- `StrategyEvent` from src/events/types.rs (payload of OrdersGenerated
omitted). -/
inductive StrategyEvent where
  | Started
  | Stopped
  | OrdersGenerated
  | ParametersUpdated
  | Error (msg : String)
deriving DecidableEq, Repr

/-- `ConnectionEvent` from src/events/types.rs. -/
inductive ConnectionEvent where
  | Connected
  | Disconnected
  | Reconnecting
  | Error (msg : String)
  | MessageReceived
  | MessageSent
deriving DecidableEq, Repr

/-- `SystemLevelEvent` from src/events/types.rs (metric payload omitted). -/
inductive SystemLevelEvent where
  | Startup
  | Shutdown
  | ConfigurationChanged
  | PerformanceMetric
  | Error (component msg : String)
deriving DecidableEq, Repr

/-- `SystemEvent` from src/events/types.rs; payloads that neither
`priority()` nor `get_event_topics` inspects are omitted. -/
inductive SystemEvent where
  | MarketData (symbol : String)
  | Order
  | Position
  | Strategy (strategy_name : String) (event : StrategyEvent)
  | Connection (connection_id : String) (event : ConnectionEvent)
  | Risk (symbol : String)
  | System (event : SystemLevelEvent)
deriving DecidableEq, Repr

/-- `SystemEvent::priority` (src/events/types.rs lines 164-175), clauses in
source order with the trailing wildcard mapping to Normal. -/
def priority : SystemEvent → EventPriority
  | .Risk _ => .High
  | .System (.Error _ _) => .Critical
  | .Connection _ (.Error _) => .High
  | .Strategy _ (.Error _) => .High
  | .Order => .Normal
  | .Position => .Normal
  | .MarketData _ => .Low
  | _ => .Normal

/-- A bounded crossbeam channel: capacity plus current backlog. The bus owns
every receiver for its three lanes, so the Disconnected case of `try_send`
cannot arise and is not modelled. -/
structure Chan where
  capacity : ℕ
  queue : List SystemEvent
deriving DecidableEq, Repr

/-- `Sender::try_send`: enqueue when below capacity, otherwise report Full
without blocking. -/
def try_send (c : Chan) (e : SystemEvent) : Chan × Bool :=
  if c.queue.length < c.capacity then ({ c with queue := c.queue ++ [e] }, true)
  else (c, false)

/-- The slice of `EventBus` state used by `publish` and `subscribe`
(src/events/event_bus.rs): the three priority lanes, the filter list, the
metric counters with the `enable_metrics` config flag, and the subscriber map
(senders identified by allocation order). -/
structure EventBusState where
  high : Chan
  normal : Chan
  low : Chan
  filters : List (SystemEvent → Bool)
  events_processed : ℕ
  events_dropped : ℕ
  enable_metrics : Bool
  subscribers : String → List ℕ
  next_sender_id : ℕ
  max_subscribers_per_topic : ℕ

/-- The lane a priority routes to (Critical and High share the
high-priority channel). -/
def targetChan (st : EventBusState) (p : EventPriority) : Chan :=
  match p with
  | .Critical | .High => st.high
  | .Normal => st.normal
  | .Low => st.low

/-- The routing `match event.priority()` of `publish`
(src/events/event_bus.rs lines 129-139). -/
def routeTrySend (st : EventBusState) (e : SystemEvent) : EventBusState × Bool :=
  match priority e with
  | .Critical | .High =>
      let r := try_send st.high e
      ({ st with high := r.1 }, r.2)
  | .Normal =>
      let r := try_send st.normal e
      ({ st with normal := r.1 }, r.2)
  | .Low =>
      let r := try_send st.low e
      ({ st with low := r.1 }, r.2)

/-- `EventBus::publish` (src/events/event_bus.rs lines 116-160): filtered
events return Ok untouched; otherwise the event is routed by priority with a
non-blocking send, bumping `events_processed` on success and
`events_dropped` on a full lane — both only when `enable_metrics` is set. -/
def publish (st : EventBusState) (e : SystemEvent) : EventBusState × Except String Unit :=
  if st.filters.all (fun f => f e) = false then (st, .ok ())
  else
    let r := routeTrySend st e
    if r.2 then
      (if r.1.enable_metrics then
        { r.1 with events_processed := r.1.events_processed + 1 }
       else r.1, .ok ())
    else
      (if r.1.enable_metrics then
        { r.1 with events_dropped := r.1.events_dropped + 1 }
       else r.1, .error "Event bus channel full")

/-- `EventPublisher::publish` (src/events/event_bus.rs lines 393-417): same
routing, but no filters and no metric counters at all. -/
def publisher_publish (st : EventBusState) (e : SystemEvent) :
    EventBusState × Except String Unit :=
  let r := routeTrySend st e
  if r.2 then (r.1, .ok ()) else (r.1, .error "Channel full")

lemma publisher_publish_drop_count (st : EventBusState) (e : SystemEvent) :
    (publisher_publish st e).1.events_dropped = st.events_dropped := by
  rcases hp : priority e with _ | _ | _ | _ <;>
    by_cases hs : (routeTrySend st e).2 <;>
      simp [publisher_publish, routeTrySend, try_send, hp, hs] <;>
        split <;> rfl

/-- C9 (amended): for every unfiltered event, `EventBus::publish` routes it by
`event.priority()` to its lane with a non-blocking send; if the lane has
room the event is appended and nothing is dropped, and if the lane is full
the event is discarded, the call returns an error (it never blocks), and
`events_dropped` grows by exactly one IF `enable_metrics` is set (and by
nothing otherwise); `EventPublisher::publish` never touches the drop
counter. -/
theorem claim_C9 (st : EventBusState) (e : SystemEvent)
    (hf : st.filters.all (fun f => f e) = true) :
    ((targetChan st (priority e)).queue.length < (targetChan st (priority e)).capacity →
      (publish st e).2 = Except.ok () ∧
      (targetChan (publish st e).1 (priority e)).queue
        = (targetChan st (priority e)).queue ++ [e] ∧
      (publish st e).1.events_dropped = st.events_dropped) ∧
    ((targetChan st (priority e)).capacity ≤ (targetChan st (priority e)).queue.length →
      (publish st e).2 = Except.error "Event bus channel full" ∧
      (targetChan (publish st e).1 (priority e)).queue
        = (targetChan st (priority e)).queue ∧
      (publish st e).1.events_dropped
        = st.events_dropped + (if st.enable_metrics then 1 else 0)) ∧
    (publisher_publish st e).1.events_dropped = st.events_dropped := by
  refine ⟨?_, ?_, publisher_publish_drop_count st e⟩
  · intro hroom
    rcases hp : priority e with _ | _ | _ | _ <;>
      rw [hp] at hroom <;>
        simp only [targetChan] at hroom ⊢ <;>
          by_cases hm : st.enable_metrics <;>
            simp [publish, routeTrySend, try_send, targetChan, hf, hp, hroom, hm]
  · intro hfull
    have hroom : ¬ (targetChan st (priority e)).queue.length
        < (targetChan st (priority e)).capacity := not_lt.mpr hfull
    rcases hp : priority e with _ | _ | _ | _ <;>
      rw [hp] at hroom <;>
        simp only [targetChan] at hroom ⊢ <;>
          by_cases hm : st.enable_metrics <;>
            simp [publish, routeTrySend, try_send, targetChan, hf, hp, hroom, hm]


/-- A bus with empty lanes of capacity 1, metrics enabled, no filters. -/
def busOpen : EventBusState :=
  { high := { capacity := 1, queue := [] }
    normal := { capacity := 1, queue := [] }
    low := { capacity := 1, queue := [] }
    filters := [], events_processed := 0, events_dropped := 0
    enable_metrics := true, subscribers := fun _ => []
    next_sender_id := 0, max_subscribers_per_topic := 100 }

/-- C9 witness: publishing an Order event (Normal priority) onto the open bus
succeeds, appends it to the normal lane, and drops nothing. -/
theorem claim_C9_witness :
    (publish busOpen .Order).2 = Except.ok () ∧
    (targetChan (publish busOpen .Order).1 (priority .Order)).queue
      = (targetChan busOpen (priority .Order)).queue ++ [.Order] ∧
    (publish busOpen .Order).1.events_dropped = busOpen.events_dropped :=
  (claim_C9 busOpen .Order rfl).1 (by decide)

/-- The same bus with a full normal lane and metrics DISABLED. -/
def busFullNoMetrics : EventBusState :=
  { high := { capacity := 1, queue := [] }
    normal := { capacity := 1, queue := [.Order] }
    low := { capacity := 1, queue := [] }
    filters := [], events_processed := 0, events_dropped := 0
    enable_metrics := false, subscribers := fun _ => []
    next_sender_id := 0, max_subscribers_per_topic := 100 }

/-- C9 counterexample: with `enable_metrics = false`, publishing onto the
full normal lane drops the event (the lane is unchanged and an error is
returned) yet `events_dropped` is NOT incremented, refuting the claim that
the counter grows by exactly one per dropped event. -/
theorem claim_C9_counterexample :
    (publish busFullNoMetrics .Order).2 = Except.error "Event bus channel full" ∧
    (publish busFullNoMetrics .Order).1.normal.queue = busFullNoMetrics.normal.queue ∧
    (publish busFullNoMetrics .Order).1.events_dropped = busFullNoMetrics.events_dropped :=
  ⟨rfl, rfl, rfl⟩

/-- `EventBus::get_event_topics` (src/events/event_bus.rs lines 332-364). -/
def get_event_topics : SystemEvent → List String
  | .MarketData symbol => ["*", "market_data", "market_data." ++ symbol]
  | .Order => ["*", "orders"]
  | .Position => ["*", "positions"]
  | .Strategy strategy_name _ => ["*", "strategy", "strategy." ++ strategy_name]
  | .Connection connection_id _ => ["*", "connection", "connection." ++ connection_id]
  | .Risk symbol => ["*", "risk", "risk." ++ symbol]
  | .System _ => ["*", "system"]

/-- The senders `EventBus::distribute_event` (src/events/event_bus.rs lines
298-324) attempts to deliver an event to: every subscriber registered under
any of the event's topics. -/
def deliveredTo (st : EventBusState) (e : SystemEvent) : List ℕ :=
  (get_event_topics e).flatMap (fun t => st.subscribers t)

/-- `EventBus::subscribe` (src/events/event_bus.rs lines 162-175): a fresh
channel is created first; if the topic already has
`max_subscribers_per_topic` subscribers the fresh receiver is returned
without registering its sender, otherwise the sender is appended under the
topic. -/
def subscribe (st : EventBusState) (topic : String) : EventBusState × ℕ :=
  let rx := st.next_sender_id
  if st.max_subscribers_per_topic ≤ (st.subscribers topic).length then
    ({ st with next_sender_id := rx + 1 }, rx)
  else
    ({ st with
        next_sender_id := rx + 1
        subscribers := fun t =>
          if t = topic then st.subscribers topic ++ [rx] else st.subscribers t }, rx)

/-- Sender ids recorded in the subscriber map were allocated earlier than the
next fresh id. -/
def busWF (st : EventBusState) : Prop :=
  ∀ t i, i ∈ st.subscribers t → i < st.next_sender_id

/-- C10: subscribing to a topic that already carries
`max_subscribers_per_topic` subscribers returns a fresh receiver that is
never registered — the subscriber map is left exactly as it was and no
published event is ever delivered to the returned receiver. -/
theorem claim_C10 (st : EventBusState) (topic : String)
    (hwf : busWF st)
    (hfull : st.max_subscribers_per_topic ≤ (st.subscribers topic).length) :
    (subscribe st topic).1.subscribers = st.subscribers ∧
    (∀ e, (subscribe st topic).2 ∉ deliveredTo (subscribe st topic).1 e) := by
  have hsub : subscribe st topic
      = ({ st with next_sender_id := st.next_sender_id + 1 }, st.next_sender_id) := by
    unfold subscribe
    rw [if_pos hfull]
  constructor
  · rw [hsub]
  · intro e hmem
    rw [hsub] at hmem
    simp only [deliveredTo, List.mem_flatMap] at hmem
    obtain ⟨t, _, hmem⟩ := hmem
    exact absurd (hwf t _ hmem) (lt_irrefl _)

/-- A bus whose "orders" topic is at its subscriber cap of 1. -/
def busAtCap : EventBusState :=
  { high := { capacity := 1, queue := [] }
    normal := { capacity := 1, queue := [] }
    low := { capacity := 1, queue := [] }
    filters := [], events_processed := 0, events_dropped := 0
    enable_metrics := true
    subscribers := fun t => if t = "orders" then [0] else []
    next_sender_id := 1, max_subscribers_per_topic := 1 }

/-- C10 witness: subscribing to the saturated "orders" topic leaves the map
unchanged and the returned receiver gets no Order event delivered. -/
theorem claim_C10_witness :
    (subscribe busAtCap "orders").1.subscribers = busAtCap.subscribers ∧
    (subscribe busAtCap "orders").2 ∉ deliveredTo (subscribe busAtCap "orders").1 .Order := by
  have hwf : busWF busAtCap := by
    intro t i h
    simp only [busAtCap] at h ⊢
    split at h
    · simp only [List.mem_singleton] at h
      omega
    · simp at h
  have h := claim_C10 busAtCap "orders" hwf (by decide)
  exact ⟨h.1, h.2 .Order⟩

end Hedger
